import Mathlib

/-!
Shallow embedding of the Metabase ClickHouse client
(`src/metabase_clickhouse_app.py`, class `MetabaseClient`).

A query result ("DataFrame") is modelled as the list of its rows; only row
identity, counts and concatenation matter to the verified properties, so a
row is an element of an arbitrary type `α`.  Fallible calls return `Option`.
The network is modelled by explicit outcome values passed to each function:
an HTTP exchange either raises a caught exception or yields a decoded
response payload.
-/

/-- Outcome of one HTTP query exchange as seen by `execute_query`
(lines 155-167 of the source).  `raised` covers every exception the
source catches around the exchange: a network-level
`requests.exceptions.RequestException`, the exception thrown by
`raise_for_status()` on a non-2xx transport status, and the generic
`Exception` handler; `response` is a decoded payload from a 2xx exchange,
carrying the application-level `status` field, the optional `error`
diagnostic field, and the decoded rows. -/
inductive ExecOutcome (α : Type) where
  | raised (msg : String)
  | response (status : String) (error : Option String) (rows : List α)

/-- Embedding of `MetabaseClient.execute_query` (lines 117-193), from the
request onward: returns the rows on success (`None` on failure, as the
source returns `None`), paired with the list of error diagnostics the
source emits via `self.logger.error`.  The source succeeds only when the
exchange did not raise (transport success) and the payload `status` equals
`"completed"`; otherwise it logs the application status and, when the
payload has an `error` field, its text, and returns `None`. -/
def execute_query {α : Type} (outcome : ExecOutcome α) : Option (List α) × List String :=
  match outcome with
  | .raised msg => (none, [("Query execution failed: ") ++ msg])
  | .response status error rows =>
      if status = ("completed") then
        (some rows, [])
      else
        (none, (("Query failed with status: ") ++ status) ::
          (match error with
           | some e => [("Error details: ") ++ e]
           | none => []))

/-- The fetch strategy chosen by `execute_query_optimized` together with the
arguments it passes to the chosen engine (lines 366-374): the single-shot
row ceiling, the sequential page size, or the parallel page size and worker
count. -/
inductive Plan where
  | single (max_results : Nat)
  | pagination (page_size : Nat)
  | parallel (page_size : Nat) (max_workers : Nat)
deriving DecidableEq

/-- Embedding of the `optimization_mode == "auto"` branch of
`MetabaseClient.execute_query_optimized` (lines 341-374).  The input is the
outcome of the `COUNT(*)` estimation query: `none` when the count query
failed (`count_df is None`), `some n` when it returned estimate `n`.
Estimation failure selects parallel mode; otherwise the three-way threshold
on `total_rows` applies, and the dispatch at lines 366-374 fixes the engine
arguments. -/
def execute_query_optimized_plan (count_result : Option Nat) : Plan :=
  match count_result with
  | none => Plan.parallel 50000 6
  | some total_rows =>
      if total_rows ≤ 50000 then Plan.single 100000
      else if total_rows ≤ 500000 then Plan.pagination 25000
      else Plan.parallel 50000 6

/-- Embedding of the `while True` loop of
`MetabaseClient.execute_query_with_pagination` (lines 208-227) against a
non-failing server holding the fixed result table `rows`: the page fetched
at a given offset is `(rows.drop offset).take page_size`, i.e. the result
of `<query> LIMIT page_size OFFSET offset`.  The loop breaks on an empty
page, appends the page otherwise, breaks after a short page
(`len(df) < page_size`), and else advances the offset by `page_size`. -/
def paginate_loop {α : Type} (page_size : Nat) (rows : List α) (offset : Nat)
    (acc : List (List α)) : List (List α) :=
  if ((rows.drop offset).take page_size).length = 0 then acc
  else if ((rows.drop offset).take page_size).length < page_size then
    acc ++ [(rows.drop offset).take page_size]
  else
    paginate_loop page_size rows (offset + page_size)
      (acc ++ [(rows.drop offset).take page_size])
termination_by rows.length - offset
decreasing_by
  rename_i h1 h2
  simp only [List.length_take, List.length_drop] at h1 h2
  omega

/-- Embedding of `MetabaseClient.execute_query_with_pagination`
(lines 195-237) against a non-failing server with result table `rows`
(a failed page in the source breaks the loop exactly like an empty page,
so under the no-failure hypothesis the loop is `paginate_loop`): `None`
when no page was accumulated, otherwise the concatenation of the
accumulated pages in fetch order (`pd.concat(all_dataframes)`). -/
def execute_query_with_pagination {α : Type} (rows : List α) (page_size : Nat) :
    Option (List α) :=
  if (paginate_loop page_size rows 0 []).isEmpty then none
  else some (paginate_loop page_size rows 0 []).flatten

theorem paginate_loop_flatten {α : Type} (page_size : Nat) (hp : 0 < page_size)
    (rows : List α) :
    ∀ offset acc, (paginate_loop page_size rows offset acc).flatten
      = acc.flatten ++ rows.drop offset := by
  intro offset acc
  induction offset, acc using paginate_loop.induct page_size rows with
  | case1 offset acc h =>
    rw [paginate_loop]
    have hdrop : rows.drop offset = [] := by
      rw [List.drop_eq_nil_iff]
      simp only [List.length_take, List.length_drop] at h
      omega
    simp [hdrop]
  | case2 offset acc h1 h2 =>
    rw [paginate_loop]
    have hlen : (rows.drop offset).length ≤ page_size := by
      simp only [List.length_take, List.length_drop] at h2
      simp only [List.length_drop]
      omega
    have htake : (rows.drop offset).take page_size = rows.drop offset :=
      List.take_of_length_le hlen
    simp only [htake, if_neg (htake ▸ h1), if_pos (htake ▸ h2), List.flatten_append,
      List.flatten_cons, List.flatten_nil, List.append_nil]
  | case3 offset acc h1 h2 ih =>
    rw [paginate_loop]
    simp only [if_neg h1, if_neg h2]
    rw [ih, List.flatten_append, List.flatten_cons, List.flatten_nil,
      List.append_nil, List.append_assoc]
    have hdd : List.drop (offset + page_size) rows
        = List.drop page_size (List.drop offset rows) := by
      rw [List.drop_drop]
    rw [hdd, List.take_append_drop]

/-- The page indices whose fetch tasks `execute_query_with_parallel_pagination`
submits to the worker pool (lines 265 and 300-304): `total_pages` is
`(total_rows + page_size - 1) // page_size` and one task is submitted for
each `page_num in range(total_pages)`. -/
def dispatched_pages (total_rows page_size : Nat) : List Nat :=
  List.range ((total_rows + page_size - 1) / page_size)

/-- Embedding of the result-collection loop of
`execute_query_with_parallel_pagination` (lines 296-314): a slot array
`all_dataframes` pre-sized to `total_pages` and initialised to `None`;
futures are consumed in completion order `order`, and a completed page
writes its result into its own slot exactly when its fetch returned data.
`fetch page_num` is the `df` component of what `fetch_page page_num`
returned (`none` for a failed or empty page). -/
def process_completions {α : Type} (total_pages : Nat) (fetch : Nat → Option (List α))
    (order : List Nat) : List (Option (List α)) :=
  order.foldl
    (fun all_dataframes page_num =>
      match fetch page_num with
      | some df => all_dataframes.set page_num (some df)
      | none => all_dataframes)
    (List.replicate total_pages none)

/-- Embedding of `MetabaseClient.execute_query_with_parallel_pagination`
(lines 239-327).  `count_result` is the outcome of the `COUNT(*)` estimation
query (`none` when it failed); `fetch` gives each page task's result;
`order` is the completion order in which the futures are consumed.  The
source returns `None` when estimation fails, an empty frame when the
estimate is zero (before any task is submitted), and otherwise filters the
`None` slots out of the slot array and concatenates the rest — returning
`None` when every page failed. -/
def execute_query_with_parallel_pagination {α : Type} (count_result : Option Nat)
    (page_size : Nat) (fetch : Nat → Option (List α)) (order : List Nat) :
    Option (List α) :=
  match count_result with
  | none => none
  | some total_rows =>
      if total_rows = 0 then some []
      else if ((process_completions ((total_rows + page_size - 1) / page_size) fetch
          order).filterMap id).isEmpty then none
      else some ((process_completions ((total_rows + page_size - 1) / page_size) fetch
          order).filterMap id).flatten

theorem foldl_collect_length {α : Type} (fetch : Nat → Option (List α)) :
    ∀ (order : List Nat) (slots : List (Option (List α))),
      (order.foldl
        (fun all_dataframes page_num =>
          match fetch page_num with
          | some df => all_dataframes.set page_num (some df)
          | none => all_dataframes) slots).length = slots.length := by
  intro order
  induction order with
  | nil => intro slots; rfl
  | cons p rest ih =>
      intro slots
      rw [List.foldl_cons, ih]
      cases hf : fetch p <;> simp [hf, List.length_set]

theorem foldl_collect_getElem? {α : Type} (fetch : Nat → Option (List α)) :
    ∀ (order : List Nat) (slots : List (Option (List α))) (i : Nat), i < slots.length →
      (order.foldl
        (fun all_dataframes page_num =>
          match fetch page_num with
          | some df => all_dataframes.set page_num (some df)
          | none => all_dataframes) slots)[i]? =
        if i ∈ order ∧ (fetch i).isSome then some (fetch i) else slots[i]? := by
  intro order
  induction order with
  | nil =>
      intro slots i hi
      simp
  | cons p rest ih =>
      intro slots i hi
      rw [List.foldl_cons]
      have hl : (match fetch p with
          | some df => slots.set p (some df)
          | none => slots).length = slots.length := by
        cases hf : fetch p <;> simp [List.length_set]
      rw [ih _ i (by rw [hl]; exact hi)]
      by_cases hmem : i ∈ rest ∧ (fetch i).isSome
      · rw [if_pos hmem, if_pos ⟨List.mem_cons_of_mem _ hmem.1, hmem.2⟩]
      · rw [if_neg hmem]
        by_cases hip : i = p
        · subst hip
          cases hf : fetch i with
          | none => simp
          | some df => simp [List.getElem?_set, hi]
        · have hcond : ¬(i ∈ p :: rest ∧ (fetch i).isSome) := by
            rintro ⟨hm, hs⟩
            rcases List.mem_cons.mp hm with h | h
            · exact hip h
            · exact hmem ⟨h, hs⟩
          rw [if_neg hcond]
          cases hf : fetch p with
          | none => rfl
          | some df => rw [List.getElem?_set, if_neg (fun h => hip h.symm)]

theorem process_completions_eq_map {α : Type} (n : Nat) (fetch : Nat → Option (List α))
    (order : List Nat) (hperm : order.Perm (List.range n)) :
    process_completions n fetch order = (List.range n).map fetch := by
  apply List.ext_getElem?
  intro i
  by_cases hi : i < n
  · have hmem : i ∈ order := hperm.mem_iff.mpr (List.mem_range.mpr hi)
    unfold process_completions
    rw [foldl_collect_getElem? fetch order (List.replicate n none) i
      (by rw [List.length_replicate]; exact hi)]
    rw [List.getElem?_map, List.getElem?_range hi]
    cases hf : fetch i with
    | none =>
        rw [if_neg (by rintro ⟨-, hs⟩; exact Bool.noConfusion hs)]
        simp [List.getElem?_replicate, hi, hf]
    | some df =>
        rw [if_pos ⟨hmem, rfl⟩]
        simp [hf]
  · have h1 : (process_completions n fetch order).length ≤ i := by
      unfold process_completions
      rw [foldl_collect_length fetch order, List.length_replicate]
      omega
    have h2 : ((List.range n).map fetch).length ≤ i := by
      rw [List.length_map, List.length_range]
      omega
    rw [List.getElem?_eq_none h1, List.getElem?_eq_none h2]

theorem execute_query_with_parallel_pagination_eq {α : Type} (total_rows page_size : Nat)
    (fetch : Nat → Option (List α)) (order : List Nat) (ht : total_rows ≠ 0)
    (hperm : order.Perm (dispatched_pages total_rows page_size)) :
    execute_query_with_parallel_pagination (some total_rows) page_size fetch order
      = if ((dispatched_pages total_rows page_size).filterMap fetch).isEmpty then none
        else some ((dispatched_pages total_rows page_size).filterMap fetch).flatten := by
  rw [execute_query_with_parallel_pagination, if_neg ht]
  rw [process_completions_eq_map ((total_rows + page_size - 1) / page_size) fetch order hperm]
  rw [List.filterMap_map]
  rfl

/-- Session lifecycle events of one parallel page worker: authentication of
its dedicated client (line 278) and release of that session via
`thread_client.logout()` (line 285). -/
inductive WorkerEvent where
  | sessionOpened
  | sessionReleased
deriving DecidableEq

/-- Outcome of the whole `thread_client.execute_query(...)` call made by a
page worker (line 284), as distinct from the exchange outcome it consumes.
`escaped msg`: the call raises an exception that escapes `execute_query` —
its database-ID resolution at lines 133-136 runs *before* its `try` block,
and `get_database_id` (lines 92-115) catches only
`requests.exceptions.RequestException`, so e.g. an `AttributeError` from
`response.json().get(...)` on an array-shaped `/api/database` body (or a
plain `ValueError` from `response.json()` on requests < 2.27) propagates
out of `execute_query`; every worker with an unresolved `database_id`
takes this resolution path.  `handled outcome`: control reaches the `try`
block of `execute_query`, whose `except` handlers absorb every exception
raised there and return a value. -/
inductive PageExecOutcome (α : Type) where
  | escaped (msg : String)
  | handled (outcome : ExecOutcome α)

/-- Embedding of the worker closure `fetch_page` inside
`execute_query_with_parallel_pagination` (lines 273-293).  `auth_ok` is the
outcome of `thread_client.authenticate()` (which catches its own request
exceptions and returns a `bool`); `exec` is the outcome of the
`thread_client.execute_query(...)` call.  When that call raises
(`PageExecOutcome.escaped`), control jumps to the outer `except Exception`
handler at lines 291-293, which returns `(None, page_num)` *without*
executing `thread_client.logout()` — the logout at line 285 is not in a
`finally` block.  When the call returns (`PageExecOutcome.handled`), the
worker continues to `thread_client.logout()` (line 285) and then to the
result check at lines 287-289.  The third component records the session
lifecycle events of the worker in order. -/
def fetch_page {α : Type} (auth_ok : Bool) (exec : PageExecOutcome α) (page_num : Nat) :
    Option (List α) × Nat × List WorkerEvent :=
  if auth_ok then
    match exec with
    | .escaped _ => (none, page_num, [WorkerEvent.sessionOpened])
    | .handled outcome =>
        match (execute_query outcome).1 with
        | some df =>
            if 0 < df.length then
              (some df, page_num, [WorkerEvent.sessionOpened, WorkerEvent.sessionReleased])
            else (none, page_num, [WorkerEvent.sessionOpened, WorkerEvent.sessionReleased])
        | none => (none, page_num, [WorkerEvent.sessionOpened, WorkerEvent.sessionReleased])
  else (none, page_num, [])

/-- The authentication state of a `MetabaseClient` as touched by `logout`
(lines 449-460): the stored `session_token` and the value of the
`X-Metabase-Session` header of the underlying HTTP session (`none` when the
header is absent). -/
structure ClientState where
  session_token : Option String
  x_metabase_session : Option String
deriving DecidableEq

/-- Embedding of `MetabaseClient.logout` (lines 449-460).  When a session
token is held, the `DELETE /api/session` request runs inside `try`; whether
it succeeds or raises (`delete_request_fails`), the `finally` block clears
the stored token and pops the `X-Metabase-Session` header.  Without a
session token the method does nothing. -/
def logout (_delete_request_fails : Bool) (c : ClientState) : ClientState :=
  match c.session_token with
  | some _ => { session_token := none, x_metabase_session := none }
  | none => c

theorem paginate_loop_getElem? {α : Type} (page_size : Nat) (rows : List α) :
    ∀ offset acc,
      (∀ j, j < acc.length → acc[j]? = some ((rows.drop (j * page_size)).take page_size)) →
      offset = acc.length * page_size →
      ∀ i, i < (paginate_loop page_size rows offset acc).length →
        (paginate_loop page_size rows offset acc)[i]?
          = some ((rows.drop (i * page_size)).take page_size) := by
  intro offset acc
  induction offset, acc using paginate_loop.induct page_size rows with
  | case1 offset acc h =>
      intro hacc hoff i hi
      rw [paginate_loop, if_pos h] at hi ⊢
      exact hacc i hi
  | case2 offset acc h1 h2 =>
      intro hacc hoff i hi
      subst hoff
      rw [paginate_loop, if_neg h1, if_pos h2] at hi ⊢
      rw [List.length_append] at hi
      simp only [List.length_cons, List.length_nil] at hi
      by_cases hia : i < acc.length
      · rw [List.getElem?_append, if_pos hia]
        exact hacc i hia
      · have hieq : i = acc.length := by omega
        subst hieq
        rw [List.getElem?_append, if_neg (Nat.lt_irrefl _), Nat.sub_self]
        rfl
  | case3 offset acc h1 h2 ih =>
      intro hacc hoff i hi
      subst hoff
      rw [paginate_loop, if_neg h1, if_neg h2] at hi ⊢
      refine ih ?_ ?_ i hi
      · intro j hj
        rw [List.length_append] at hj
        simp only [List.length_cons, List.length_nil] at hj
        by_cases hja : j < acc.length
        · rw [List.getElem?_append, if_pos hja]
          exact hacc j hja
        · have hjeq : j = acc.length := by omega
          subst hjeq
          rw [List.getElem?_append, if_neg (Nat.lt_irrefl _), Nat.sub_self]
          rfl
      · rw [List.length_append]
        simp only [List.length_cons, List.length_nil]
        rw [Nat.add_mul, Nat.one_mul]

/-- Claim C2: for every estimated row count `n`, the automatic strategy
selector chooses single-shot with ceiling 100000 when `n ≤ 50000`,
sequential pagination with page size 25000 when `50000 < n ≤ 500000`, and
parallel pagination with page size 50000 and concurrency 6 when
`n > 500000`. -/
theorem execute_query_optimized_plan_thresholds (n : Nat) :
    (n ≤ 50000 → execute_query_optimized_plan (some n) = Plan.single 100000)
    ∧ (50000 < n → n ≤ 500000 →
        execute_query_optimized_plan (some n) = Plan.pagination 25000)
    ∧ (500000 < n →
        execute_query_optimized_plan (some n) = Plan.parallel 50000 6) := by
  refine ⟨?_, ?_, ?_⟩
  · intro h
    simp [execute_query_optimized_plan, h]
  · intro h1 h2
    have hn : ¬ n ≤ 50000 := by omega
    simp [execute_query_optimized_plan, hn, h2]
  · intro h
    have hn1 : ¬ n ≤ 50000 := by omega
    have hn2 : ¬ n ≤ 500000 := by omega
    simp [execute_query_optimized_plan, hn1, hn2]

/-- Witness for C2 at the boundary points: 50000 selects single-shot, 50001
and 500000 select sequential pagination, 500001 selects parallel. -/
theorem execute_query_optimized_plan_thresholds_witness :
    execute_query_optimized_plan (some 50000) = Plan.single 100000
    ∧ execute_query_optimized_plan (some 50001) = Plan.pagination 25000
    ∧ execute_query_optimized_plan (some 500000) = Plan.pagination 25000
    ∧ execute_query_optimized_plan (some 500001) = Plan.parallel 50000 6 :=
  ⟨(execute_query_optimized_plan_thresholds 50000).1 (by decide),
   (execute_query_optimized_plan_thresholds 50001).2.1 (by decide) (by decide),
   (execute_query_optimized_plan_thresholds 500000).2.1 (by decide) (by decide),
   (execute_query_optimized_plan_thresholds 500001).2.2 (by decide)⟩

/-- Claim C6: when row-count estimation fails (the count query returns no
result), the automatic strategy selector routes the query to the parallel
pagination strategy (page size 50000, 6 workers). -/
theorem estimation_failure_selects_parallel :
    execute_query_optimized_plan none = Plan.parallel 50000 6 := rfl

/-- Claim C4: the sequential engine requests pages `LIMIT p OFFSET k*p` for
`k = 0, 1, 2, ...` (the i-th accumulated page is exactly the slice of the
table at offset `i*p`), terminates on a short or empty page, and — when no
page fails — the returned table is the concatenation of the pages in fetch
order, i.e. the full table, with `None` exactly on an empty table. -/
theorem sequential_pagination_correct {α : Type} (rows : List α) (page_size : Nat)
    (hp : 0 < page_size) :
    (∀ i, i < (paginate_loop page_size rows 0 []).length →
        (paginate_loop page_size rows 0 [])[i]?
          = some ((rows.drop (i * page_size)).take page_size))
    ∧ (paginate_loop page_size rows 0 []).flatten = rows
    ∧ execute_query_with_pagination rows page_size
        = if rows.isEmpty then none else some rows := by
  have hflat : (paginate_loop page_size rows 0 []).flatten = rows := by
    rw [paginate_loop_flatten page_size hp rows 0 []]
    simp
  refine ⟨?_, hflat, ?_⟩
  · exact paginate_loop_getElem? page_size rows 0 []
      (fun j hj => absurd hj (by simp)) (by simp)
  · rw [execute_query_with_pagination]
    by_cases hr : rows.isEmpty
    · rw [List.isEmpty_iff] at hr
      subst hr
      rw [if_pos (by rw [paginate_loop]; simp), if_pos (by simp)]
    · have hne : ¬ (paginate_loop page_size rows 0 []).isEmpty = true := by
        intro hc
        rw [List.isEmpty_iff] at hc hr
        rw [hc] at hflat
        exact hr (hflat.symm.trans List.flatten_nil)
      rw [if_neg hne, if_neg hr, hflat]

/-- Witness for C4 on the table `[10, 20, 30]` with page size 2: the fetch
returns the whole table and the second accumulated page is the slice at
offset 2. -/
theorem sequential_pagination_correct_witness :
    execute_query_with_pagination [10, 20, 30] 2 = some [10, 20, 30]
    ∧ (paginate_loop 2 [10, 20, 30] 0 [])[1]?
        = some ((List.drop (1 * 2) [10, 20, 30]).take 2) := by
  have h := sequential_pagination_correct [10, 20, 30] 2 (by decide)
  constructor
  · rw [h.2.2]
    rfl
  · refine h.1 1 ?_
    have hlen : paginate_loop 2 [10, 20, 30] 0 [] = [[10, 20], [30]] := by
      rw [paginate_loop]
      norm_num
      rw [paginate_loop]
      norm_num
    rw [hlen]
    decide

/-- Claim C9: when the row-count estimation succeeds with an estimate of
exactly 0 rows, the parallel engine returns an empty table (not the
failure value `None`) and the set of dispatched page tasks is empty. -/
theorem parallel_pagination_zero_estimate {α : Type} (page_size : Nat)
    (fetch : Nat → Option (List α)) (order : List Nat) :
    execute_query_with_parallel_pagination (some 0) page_size fetch order = some []
    ∧ dispatched_pages 0 page_size = [] := by
  constructor
  · rfl
  · rw [dispatched_pages]
    have hz : (0 + page_size - 1) / page_size = 0 := by
      rcases Nat.eq_zero_or_pos page_size with h | h
      · rw [h]
      · exact Nat.div_eq_of_lt (by omega)
    rw [hz]
    rfl

/-- Claim C1: when every page task succeeds, the assembled result of a
parallel paginated fetch is the concatenation of the page results in
strict page-index order, for every completion order of the page tasks. -/
theorem parallel_pagination_ordered_assembly {α : Type} (total_rows page_size : Nat)
    (pageData : Nat → List α) (order : List Nat)
    (ht : 0 < total_rows) (hp : 0 < page_size)
    (hperm : order.Perm (dispatched_pages total_rows page_size)) :
    execute_query_with_parallel_pagination (some total_rows) page_size
        (fun page_num => some (pageData page_num)) order
      = some (((dispatched_pages total_rows page_size).map pageData).flatten) := by
  rw [execute_query_with_parallel_pagination_eq total_rows page_size _ order
    (Nat.pos_iff_ne_zero.mp ht) hperm]
  rw [show (fun page_num => some (pageData page_num)) = some ∘ pageData from rfl,
    List.filterMap_eq_map]
  have hn : 0 < (total_rows + page_size - 1) / page_size :=
    Nat.div_pos (by omega) hp
  have hne : ¬ ((dispatched_pages total_rows page_size).map pageData).isEmpty = true := by
    rw [List.isEmpty_iff, List.map_eq_nil_iff, dispatched_pages, List.range_eq_nil]
    omega
  rw [if_neg hne]

/-- Witness for C1: 3 pages completing in order 2, 0, 1 still assemble as
page 0, then page 1, then page 2. -/
theorem parallel_pagination_ordered_assembly_witness :
    execute_query_with_parallel_pagination (some 5) 2
        (fun page_num => some [page_num]) [2, 0, 1]
      = some [0, 1, 2] :=
  (parallel_pagination_ordered_assembly 5 2 (fun page_num => [page_num]) [2, 0, 1]
    (by decide) (by decide) (by decide)).trans (by decide)

/-- Claim C3: when at least one page task fails and at least one succeeds,
the parallel engine silently drops the failed pages: it still returns
`some` table (no error value), namely the in-order concatenation of the
successful pages only. -/
theorem parallel_pagination_skips_failed_pages {α : Type} (total_rows page_size : Nat)
    (fetch : Nat → Option (List α)) (order : List Nat)
    (ht : 0 < total_rows) (hp : 0 < page_size)
    (hperm : order.Perm (dispatched_pages total_rows page_size))
    (hfail : ∃ i ∈ dispatched_pages total_rows page_size, fetch i = none)
    (hsucc : ∃ i ∈ dispatched_pages total_rows page_size, (fetch i).isSome) :
    execute_query_with_parallel_pagination (some total_rows) page_size fetch order
      = some (((dispatched_pages total_rows page_size).filterMap fetch).flatten) := by
  rw [execute_query_with_parallel_pagination_eq total_rows page_size fetch order
    (Nat.pos_iff_ne_zero.mp ht) hperm]
  have hne : ¬ ((dispatched_pages total_rows page_size).filterMap fetch).isEmpty = true := by
    obtain ⟨i, hmem, hs⟩ := hsucc
    rw [List.isEmpty_iff]
    intro hc
    obtain ⟨v, hv⟩ := Option.isSome_iff_exists.mp hs
    have hvmem : v ∈ (dispatched_pages total_rows page_size).filterMap fetch :=
      List.mem_filterMap.mpr ⟨i, hmem, hv⟩
    rw [hc] at hvmem
    exact List.not_mem_nil v hvmem
  rw [if_neg hne]

/-- Witness for C3, the scenario from the spec: 12 pages of 50000 rows where
only page 7 fails yield 550000 rows and no error. -/
theorem parallel_pagination_skips_failed_pages_witness :
    (execute_query_with_parallel_pagination (some 600000) 50000
        (fun page_num => if page_num = 7 then none
          else some (List.replicate 50000 (0 : Nat)))
        (List.range 12)).map List.length = some 550000 := by
  have h := parallel_pagination_skips_failed_pages 600000 50000
    (fun page_num => if page_num = 7 then none
      else some (List.replicate 50000 (0 : Nat)))
    (List.range 12) (by decide) (by decide) (by decide)
    ⟨7, by decide, by decide⟩ ⟨0, by decide, by decide⟩
  rw [h]
  have hfm : (dispatched_pages 600000 50000).filterMap
      (fun page_num => if page_num = 7 then none
        else some (List.replicate 50000 (0 : Nat)))
      = List.replicate 11 (List.replicate 50000 (0 : Nat)) := by rfl
  rw [hfm, Option.map_some']
  rw [List.length_flatten, List.map_replicate, List.length_replicate,
    List.sum_replicate, smul_eq_mul]

/-- Claim C5: with a successful estimate of `t > 0` rows and page size
`p > 0`, the parallel engine dispatches exactly `ceil(t/p)` page tasks
(the dispatched count `n` satisfies `(n-1)*p < t ≤ n*p`), computed by the
exact integer formula `(t + p - 1) div p`. -/
theorem dispatched_pages_count (total_rows page_size : Nat)
    (ht : 0 < total_rows) (hp : 0 < page_size) :
    total_rows ≤ (dispatched_pages total_rows page_size).length * page_size
    ∧ ((dispatched_pages total_rows page_size).length - 1) * page_size < total_rows
    ∧ (dispatched_pages total_rows page_size).length
        = (total_rows + page_size - 1) / page_size := by
  have hlen : (dispatched_pages total_rows page_size).length
      = (total_rows + page_size - 1) / page_size := by
    rw [dispatched_pages, List.length_range]
  have key := Nat.div_add_mod (total_rows + page_size - 1) page_size
  have hmod := Nat.mod_lt (total_rows + page_size - 1) hp
  refine ⟨?_, ?_, hlen⟩
  · rw [hlen, Nat.mul_comm]
    generalize hq : (total_rows + page_size - 1) / page_size = q at key ⊢
    generalize hr : (total_rows + page_size - 1) % page_size = r at key hmod
    generalize hm : page_size * q = m at key ⊢
    omega
  · rw [hlen, Nat.sub_one_mul, Nat.mul_comm]
    generalize hq : (total_rows + page_size - 1) / page_size = q at key ⊢
    generalize hr : (total_rows + page_size - 1) % page_size = r at key hmod
    generalize hm : page_size * q = m at key ⊢
    omega

/-- Witness for C5: an estimate of 600000 rows with page size 50000
dispatches exactly 12 page tasks. -/
theorem dispatched_pages_count_witness :
    (dispatched_pages 600000 50000).length = 12
    ∧ 600000 ≤ (dispatched_pages 600000 50000).length * 50000
    ∧ ((dispatched_pages 600000 50000).length - 1) * 50000 < 600000
    ∧ (dispatched_pages 600000 50000).length = (600000 + 50000 - 1) / 50000 := by
  have h := dispatched_pages_count 600000 50000 (by decide) (by decide)
  exact ⟨by decide, h.1, h.2.1, h.2.2⟩

/-- Claim C7: a single-page query execution succeeds only when both the
transport-level exchange succeeded and the application-level payload
status equals "completed"; on any non-completed application status the
call fails even though HTTP was 2xx, and the emitted diagnostics carry the
server-provided status text and, when present, the server's error text. -/
theorem execute_query_success_and_diagnostics {α : Type} (outcome : ExecOutcome α) :
    ((execute_query outcome).1.isSome ↔
      ∃ error rows, outcome = ExecOutcome.response ("completed") error rows)
    ∧ (∀ status error rows, outcome = ExecOutcome.response status error rows →
        status ≠ ("completed") →
          (execute_query outcome).1 = none
          ∧ (("Query failed with status: ") ++ status) ∈ (execute_query outcome).2
          ∧ ∀ e, error = some e →
              (("Error details: ") ++ e) ∈ (execute_query outcome).2) := by
  constructor
  · cases outcome with
    | raised msg => simp [execute_query]
    | response status error rows =>
        by_cases hs : status = ("completed")
        · subst hs
          simp [execute_query]
        · simp [execute_query, hs]
  · intro status error rows heq hs
    subst heq
    refine ⟨?_, ?_, ?_⟩
    · simp [execute_query, hs]
    · simp [execute_query, hs]
    · intro e he
      subst he
      simp [execute_query, hs]

/-- Witness for C7: a 2xx response whose payload reports status "failed"
with error text yields no result and both diagnostics. -/
theorem execute_query_success_and_diagnostics_witness :
    (execute_query (ExecOutcome.response ("failed") (some ("bad sql"))
        ([] : List Nat))).1 = none
    ∧ (("Query failed with status: ") ++ ("failed"))
        ∈ (execute_query (ExecOutcome.response ("failed") (some ("bad sql"))
            ([] : List Nat))).2
    ∧ (("Error details: ") ++ ("bad sql"))
        ∈ (execute_query (ExecOutcome.response ("failed") (some ("bad sql"))
            ([] : List Nat))).2 := by
  have h := (execute_query_success_and_diagnostics
    (ExecOutcome.response ("failed") (some ("bad sql")) ([] : List Nat))).2
    ("failed") (some ("bad sql")) [] rfl (by decide)
  exact ⟨h.1, h.2.1, h.2.2 ("bad sql") rfl⟩

/-- Claim C8 (code bug): the claim — and spec section 5, which demands that
release "must be guaranteed on every exit path, not just the success
path" — is violated by the code.  A worker that successfully opened its
session releases it on every path on which `execute_query` *returns*
(success, empty page, or an exchange exception absorbed by its handlers),
but when `execute_query` *raises* — possible from its pre-`try`
database-ID resolution, whose `get_database_id` catches only
`RequestException` — the outer `except Exception` handler at line 291
returns without `thread_client.logout()`: the trace shows the session
opened and never released. -/
theorem fetch_page_session_release_gap {α : Type} (msg : String)
    (outcome : ExecOutcome α) (page_num : Nat) :
    WorkerEvent.sessionReleased
        ∈ (fetch_page true (PageExecOutcome.handled outcome) page_num).2.2
    ∧ WorkerEvent.sessionOpened
        ∈ (fetch_page true (PageExecOutcome.escaped msg : PageExecOutcome α)
            page_num).2.2
    ∧ WorkerEvent.sessionReleased
        ∉ (fetch_page true (PageExecOutcome.escaped msg : PageExecOutcome α)
            page_num).2.2 := by
  refine ⟨?_, ?_, ?_⟩
  · cases h : (execute_query outcome).1 with
    | none => simp [fetch_page, h]
    | some df =>
        by_cases hd : 0 < df.length
        · simp [fetch_page, h, hd]
        · simp [fetch_page, h, hd]
  · simp [fetch_page]
  · simp [fetch_page]

/-- Claim C10: `logout` on a client holding a session token clears the
stored token and removes the session header even when the server-side
DELETE request fails; on a client without a session token it changes
nothing. -/
theorem logout_clears_session (delete_request_fails : Bool) (c : ClientState) :
    (c.session_token.isSome →
        (logout delete_request_fails c).session_token = none
        ∧ (logout delete_request_fails c).x_metabase_session = none)
    ∧ (c.session_token = none → logout delete_request_fails c = c) := by
  constructor
  · intro h
    cases hc : c.session_token with
    | none =>
        rw [hc] at h
        simp at h
    | some tok => exact ⟨by simp [logout, hc], by simp [logout, hc]⟩
  · intro h
    simp [logout, h]

/-- Witness for C10: with a token held and a failing DELETE the state is
cleared; without a token the client is unchanged. -/
theorem logout_clears_session_witness :
    (logout true { session_token := some ("tok"), x_metabase_session := some ("tok") }).session_token = none
    ∧ (logout true { session_token := some ("tok"), x_metabase_session := some ("tok") }).x_metabase_session = none
    ∧ logout true { session_token := none, x_metabase_session := some ("h") }
        = { session_token := none, x_metabase_session := some ("h") } := by
  have h1 := (logout_clears_session true
    { session_token := some ("tok"), x_metabase_session := some ("tok") }).1 (by decide)
  have h2 := (logout_clears_session true
    { session_token := none, x_metabase_session := some ("h") }).2 rfl
  exact ⟨h1.1, h1.2, h2⟩
